import Mathlib

/-!
# Verification of `effect-react-cache` (`src/src/ReactCache.ts`)

Shallow embedding of the cache adapter in `ReactCache.ts`: an Effect-returning
function is wrapped with React's `cache`, memoizing by argument tuple.

Modelling decisions, all taken from the source:

* An underlying execution is a pure function `Args → Ctx → Exit A E D`
  (the effect run under the captured context with `Effect.runPromiseExit`
  settles to an `Exit`).  `Exit` is success-or-cause; a `Cause` is the tree
  shape used by the effect library (`Empty`, `Fail`, `Die`, `Interrupt`,
  `Sequential`, `Parallel`).
* `runEffectFn`'s `.then` callback classifies the exit via `Cause.match`;
  the `onInterrupt` / `onSequential` / `onParallel` branches `throw`, which
  rejects the promise.  We model the possibly-rejected settled promise as
  `Except AdapterError (PromiseResult A E D)`.
* React's `cache` memoizes `runEffectCachedFn` on `(effect, ...args)`; the
  returned closure holds a `promise` cell assigned on first invocation.
  Lookup-or-create plus the `if (!promise)` assignment are synchronous
  (no await between them), so any cooperative interleaving of callers is
  faithfully modelled by running the callers' lookup steps in event-loop
  order.  The two memoization levels collapse into one slot table keyed by
  `(function identity, argument tuple)`, threaded as explicit state
  (`CacheState`).  Function identity is a `Nat` id into a family `fns`.
* The wrapper body (`Effect.gen` in `reactCache`) awaits the slot promise
  with `Effect.promise` — a rejection becomes a defect — and then branches
  on `if (result.success)` / `if (result.error)`: JavaScript *truthiness*
  tests.  Truthiness of the payload types is a parameter (`truthyA`,
  `truthyE`); `undefined` (modelled by `Option.none`) is always falsy.
* The `NoScope<R>` conditional type is embedded over a list of atomic
  capabilities: `Extract<R, Scope.Scope>` keeps the members equal to the
  `Scope` capability, and the conditional yields either `R` itself or the
  two-string error tuple.
-/

namespace ReactCache

/-- A `Cause` tree as produced by the effect runtime (`effect/Cause`). -/
inductive Cause (E D : Type) where
  | empty : Cause E D
  | fail (error : E) : Cause E D
  | die (defect : D) : Cause E D
  | interrupt : Cause E D
  | sequential (left right : Cause E D) : Cause E D
  | parallel (left right : Cause E D) : Cause E D
deriving DecidableEq

/-- An `Exit` as produced by `Effect.runPromiseExit`: success or a cause. -/
inductive Exit (A E D : Type) where
  | success (value : A) : Exit A E D
  | failure (cause : Cause E D) : Exit A E D
deriving DecidableEq

/-- The errors thrown inside the `Cause.match` handlers of `runEffectFn`
(`throw new Error("... cause not supported")`), which reject the slot
promise. -/
inductive AdapterError where
  | interruptNotSupported
  | sequentialNotSupported
  | parallelNotSupported
deriving DecidableEq

/-- `CauseResult<E>` from the source: `{ error: E | undefined, defect: unknown }`. -/
structure CauseResult (E D : Type) where
  error : Option E
  defect : Option D
deriving DecidableEq

/-- `PromiseResult<A, E>` from the source:
`{ success: A | undefined, error: E | undefined, defect: unknown }`. -/
structure PromiseResult (A E D : Type) where
  success : Option A
  error : Option E
  defect : Option D
deriving DecidableEq

/-- The `Cause.match` call in `runEffectFn`: a fold over the cause tree.
`onEmpty` yields no error and no defect, `onFail`/`onDie` record the leaf,
and the `onInterrupt`/`onSequential`/`onParallel` handlers throw
(modelled as `Except.error`).  The fold evaluates children before the
composite handler runs, so a throwing child propagates first. -/
def causeMatch {E D : Type} : Cause E D → Except AdapterError (CauseResult E D)
  | .empty => .ok ⟨none, none⟩
  | .fail e => .ok ⟨some e, none⟩
  | .die d => .ok ⟨none, some d⟩
  | .interrupt => .error .interruptNotSupported
  | .sequential l r =>
    match causeMatch l with
    | .error e => .error e
    | .ok _ =>
      match causeMatch r with
      | .error e => .error e
      | .ok _ => .error .sequentialNotSupported
  | .parallel l r =>
    match causeMatch l with
    | .error e => .error e
    | .ok _ =>
      match causeMatch r with
      | .error e => .error e
      | .ok _ => .error .parallelNotSupported

/-- `runEffectFn`: run the effect under the captured context and classify the
settled exit into a `PromiseResult` (or a rejection, when classification
throws).  Success exits keep the value; failure exits go through
`causeMatch`. -/
def runEffectFn {Args Ctx A E D : Type} (effect : Args → Ctx → Exit A E D)
    (context : Ctx) (args : Args) : Except AdapterError (PromiseResult A E D) :=
  match effect args context with
  | .success a => .ok ⟨some a, none, none⟩
  | .failure c =>
    match causeMatch c with
    | .ok r => .ok ⟨none, r.error, r.defect⟩
    | .error err => .error err

/-- The shared mutable state: the module-global slot table built by React's
`cache` (keyed by function identity and argument tuple, holding each slot's
settled promise) plus a log of underlying executions, one entry per
invocation of the wrapped source function, recording the context it was
invoked under. -/
structure CacheState (Args Ctx A E D : Type) where
  slots : List ((Nat × Args) × Except AdapterError (PromiseResult A E D))
  execLog : List (Nat × Args × Ctx)

/-- The state before any call: no slots, no executions. -/
def CacheState.empty {Args Ctx A E D : Type} : CacheState Args Ctx A E D :=
  ⟨[], []⟩

/-- Association-list lookup for the slot table. -/
def findSlot {Args β : Type} [DecidableEq Args] (key : Nat × Args) :
    List ((Nat × Args) × β) → Option β
  | [] => none
  | (k, v) :: rest => if k = key then some v else findSlot key rest

/-- `runEffectCachedFn` applied to `(effect, ...args)` and then to the
context: React's `cache` returns the memoized closure for the key, and the
closure runs `if (!promise) promise = runEffectFn(...)` — all synchronous.
A hit returns the stored promise unchanged; a miss creates the promise from
the *caller's* context, stores it, and logs one execution. -/
def runEffectCachedFn {Args Ctx A E D : Type} [DecidableEq Args]
    (fns : Nat → Args → Ctx → Exit A E D) (fnId : Nat) (args : Args)
    (context : Ctx) (s : CacheState Args Ctx A E D) :
    Except AdapterError (PromiseResult A E D) × CacheState Args Ctx A E D :=
  match findSlot (fnId, args) s.slots with
  | some promise => (promise, s)
  | none =>
    let promise := runEffectFn (fns fnId) context args
    (promise,
     ⟨((fnId, args), promise) :: s.slots, s.execLog ++ [(fnId, args, context)]⟩)

/-- JavaScript truthiness of an optional value: `undefined` is falsy, a
present value is as truthy as the payload. -/
def truthyOpt {α : Type} (truthy : α → Bool) : Option α → Bool
  | none => false
  | some a => truthy a

/-- What a caller's fiber dies with: either `Effect.die(result.defect)`
(the stored defect field, possibly `undefined`), or the rejection of the
slot promise surfaced by `Effect.promise`. -/
inductive Defect (D : Type) where
  | value (defect : Option D) : Defect D
  | rejection (err : AdapterError) : Defect D
deriving DecidableEq

/-- The effect a caller of the wrapped function observes when run: the
success channel (`Effect.succeed`), the typed-failure channel
(`Effect.fail`) or abnormal termination (`Effect.die` / a rejected slot
promise). -/
inductive CallOutcome (A E D : Type) where
  | succeed (value : A) : CallOutcome A E D
  | fail (error : E) : CallOutcome A E D
  | die (defect : Defect D) : CallOutcome A E D
deriving DecidableEq

/-- The tail of the translation in `reactCache` once the success branch was
not taken: `if (result.error) fail(result.error)` else
`die(result.defect)` — note the truthiness test on `result.error`. -/
def translateNonSuccess {A E D : Type} (truthyE : E → Bool)
    (r : PromiseResult A E D) : CallOutcome A E D :=
  match r.error with
  | some e => if truthyE e then .fail e else .die (.value r.defect)
  | none => .die (.value r.defect)

/-- The translation in the `Effect.gen` body of `reactCache`:
`if (result.success) succeed(result.success)`, else the non-success tail —
note the truthiness test on `result.success`. -/
def translateResult {A E D : Type} (truthyA : A → Bool) (truthyE : E → Bool)
    (r : PromiseResult A E D) : CallOutcome A E D :=
  match r.success with
  | some a =>
    if truthyA a then .succeed a else translateNonSuccess truthyE r
  | none => translateNonSuccess truthyE r

/-- Awaiting the slot promise with `Effect.promise` and translating: a
rejected promise makes the caller's fiber die with the rejection; a
fulfilled promise goes through `translateResult`. -/
def awaitSlot {A E D : Type} (truthyA : A → Bool) (truthyE : E → Bool) :
    Except AdapterError (PromiseResult A E D) → CallOutcome A E D
  | .error err => .die (.rejection err)
  | .ok r => translateResult truthyA truthyE r

/-- One full invocation of the wrapped function, as executed by the caller's
runtime: capture the caller's context, look up or create the slot, await
its promise and translate the outcome.  Returns the caller-visible outcome
and the updated shared state. -/
def reactCacheCall {Args Ctx A E D : Type} [DecidableEq Args]
    (truthyA : A → Bool) (truthyE : E → Bool)
    (fns : Nat → Args → Ctx → Exit A E D) (fnId : Nat) (args : Args)
    (context : Ctx) (s : CacheState Args Ctx A E D) :
    CallOutcome A E D × CacheState Args Ctx A E D :=
  let res := runEffectCachedFn fns fnId args context s
  (awaitSlot truthyA truthyE res.1, res.2)

/-- `reactCache` itself: wrapper construction.  It closes over the source
function (its identity `fnId`) and nothing else — no per-wrapper state is
created; every wrapper built from the same source function reads and writes
the same module-global slot table. -/
def reactCache {Args Ctx A E D : Type} [DecidableEq Args]
    (truthyA : A → Bool) (truthyE : E → Bool)
    (fns : Nat → Args → Ctx → Exit A E D) (fnId : Nat) :
    Args → Ctx → CacheState Args Ctx A E D →
      CallOutcome A E D × CacheState Args Ctx A E D :=
  fun args context s => reactCacheCall truthyA truthyE fns fnId args context s

/-- Run a sequence of invocations in event-loop order (each triple is a
caller: function identity, argument tuple, captured context), threading the
shared state and collecting each caller's observed outcome. -/
def runCalls {Args Ctx A E D : Type} [DecidableEq Args]
    (truthyA : A → Bool) (truthyE : E → Bool)
    (fns : Nat → Args → Ctx → Exit A E D) :
    List (Nat × Args × Ctx) → CacheState Args Ctx A E D →
      List (CallOutcome A E D) × CacheState Args Ctx A E D
  | [], s => ([], s)
  | (fnId, args, context) :: rest, s =>
    let step := reactCacheCall truthyA truthyE fns fnId args context s
    let next := runCalls truthyA truthyE fns rest step.2
    (step.1 :: next.1, next.2)

/-- An atomic capability in an environment type `R`: the `Scope` capability
or any other service tag. -/
inductive Capability where
  | scope : Capability
  | other (tag : Nat) : Capability
deriving DecidableEq

/-- A type on the `R` position of `Effect<A, E, _>`: either an ordinary
environment (a set of capabilities) or the two-string error tuple the
`NoScope` conditional type resolves to. -/
inductive EnvType where
  | env (caps : List Capability) : EnvType
  | errTuple (msg1 msg2 : String) : EnvType
deriving DecidableEq

/-- First line of the `NoScope` error tuple. -/
def scopeErrMsg1 : String :=
  "reactCache: Effects requiring Scope cannot be cached."

/-- Second line of the `NoScope` error tuple. -/
def scopeErrMsg2 : String :=
  "Move resource acquisition outside, or memoize with a Layer instead."

/-- `Extract<R, Scope.Scope>`: the members of the union `R` assignable to
the `Scope` capability. -/
def extractScope (R : List Capability) : List Capability :=
  R.filter (fun c => c = Capability.scope)

/-- The `NoScope<R>` conditional type:
`[Extract<R, Scope.Scope>] extends [never] ? R : [errline1, errline2]`. -/
def NoScope (R : List Capability) : EnvType :=
  if extractScope R = [] then EnvType.env R
  else EnvType.errTuple scopeErrMsg1 scopeErrMsg2

/-! ## Helper lemmas -/

variable {Args Ctx A E D β : Type}

theorem findSlot_nil [DecidableEq Args] (key : Nat × Args) :
    findSlot (β := β) key [] = none := rfl

theorem findSlot_cons [DecidableEq Args] (key k : Nat × Args) (v : β)
    (rest : List ((Nat × Args) × β)) :
    findSlot key ((k, v) :: rest) =
      if k = key then some v else findSlot key rest := rfl

/-- A call whose slot already exists returns the stored promise's translation
and leaves the state unchanged. -/
theorem reactCacheCall_hit [DecidableEq Args]
    (truthyA : A → Bool) (truthyE : E → Bool)
    (fns : Nat → Args → Ctx → Exit A E D) (fnId : Nat) (args : Args)
    (context : Ctx) (s : CacheState Args Ctx A E D)
    (p : Except AdapterError (PromiseResult A E D))
    (h : findSlot (fnId, args) s.slots = some p) :
    reactCacheCall truthyA truthyE fns fnId args context s =
      (awaitSlot truthyA truthyE p, s) := by
  simp [reactCacheCall, runEffectCachedFn, h]

/-- A call whose slot is missing creates the promise from the caller's
context, stores it and logs exactly one execution. -/
theorem reactCacheCall_miss [DecidableEq Args]
    (truthyA : A → Bool) (truthyE : E → Bool)
    (fns : Nat → Args → Ctx → Exit A E D) (fnId : Nat) (args : Args)
    (context : Ctx) (s : CacheState Args Ctx A E D)
    (h : findSlot (fnId, args) s.slots = none) :
    reactCacheCall truthyA truthyE fns fnId args context s =
      (awaitSlot truthyA truthyE (runEffectFn (fns fnId) context args),
       ⟨((fnId, args), runEffectFn (fns fnId) context args) :: s.slots,
        s.execLog ++ [(fnId, args, context)]⟩) := by
  simp [reactCacheCall, runEffectCachedFn, h]

/-- The state after the very first call from the empty state. -/
theorem first_call_state [DecidableEq Args]
    (truthyA : A → Bool) (truthyE : E → Bool)
    (fns : Nat → Args → Ctx → Exit A E D) (fnId : Nat) (args : Args)
    (context : Ctx) :
    reactCacheCall truthyA truthyE fns fnId args context CacheState.empty =
      (awaitSlot truthyA truthyE (runEffectFn (fns fnId) context args),
       ⟨[((fnId, args), runEffectFn (fns fnId) context args)],
        [(fnId, args, context)]⟩) := by
  simpa [CacheState.empty] using
    reactCacheCall_miss truthyA truthyE fns fnId args context CacheState.empty rfl

/-- Running any number of further callers of the same key against a state
whose slot is settled returns the shared translation to each of them and
leaves the state untouched. -/
theorem runCalls_all_hit [DecidableEq Args]
    (truthyA : A → Bool) (truthyE : E → Bool)
    (fns : Nat → Args → Ctx → Exit A E D) (fnId : Nat) (args : Args)
    (cs : List Ctx) (s : CacheState Args Ctx A E D)
    (p : Except AdapterError (PromiseResult A E D))
    (h : findSlot (fnId, args) s.slots = some p) :
    runCalls truthyA truthyE fns (cs.map fun c => (fnId, args, c)) s =
      (cs.map fun _ => awaitSlot truthyA truthyE p, s) := by
  induction cs with
  | nil => simp [runCalls]
  | cons c cs ih =>
      simp [runCalls, reactCacheCall_hit truthyA truthyE fns fnId args c s p h, ih]

/-! ## Concrete instances used by witnesses -/

/-- JavaScript truthiness of a number: `0` is falsy, everything else truthy. -/
def truthyNat : Nat → Bool := fun n => n != 0

/-- A family of functions whose result is the supplied context (environment),
used to observe environment pinning. -/
def ctxFns : Nat → Nat → Nat → Exit Nat Nat Nat :=
  fun _ _ c => Exit.success c

/-- A family whose every execution settles as `Success(0)` — a falsy success
value. -/
def falsySuccessFns : Nat → Nat → Nat → Exit Nat Nat Nat :=
  fun _ _ _ => Exit.success 0

/-- A family whose every execution fails with the typed error `0` — a falsy
error value. -/
def falsyFailFns : Nat → Nat → Nat → Exit Nat Nat Nat :=
  fun _ _ _ => Exit.failure (Cause.fail 0)

/-- A family whose every execution dies with defect `7`. -/
def dieFns : Nat → Nat → Nat → Exit Nat Nat Nat :=
  fun _ _ _ => Exit.failure (Cause.die 7)

/-- A family whose every execution settles with an interrupted cause. -/
def interruptFns : Nat → Nat → Nat → Exit Nat Nat Nat :=
  fun _ _ _ => Exit.failure Cause.interrupt

/-- The cause shapes `runEffectFn` refuses to classify: interruption and the
composite sequential/parallel shapes. -/
def unsupportedShape {E D : Type} : Cause E D → Bool
  | .interrupt => true
  | .sequential _ _ => true
  | .parallel _ _ => true
  | _ => false

/-- Classifying an interrupted or composite cause always throws: `causeMatch`
returns a rejection, never a `CauseResult`. -/
theorem causeMatch_unsupported {E D : Type} (c : Cause E D)
    (h : unsupportedShape c = true) :
    ∃ err, causeMatch c = Except.error err := by
  cases c with
  | empty => simp [unsupportedShape] at h
  | fail e => simp [unsupportedShape] at h
  | die d => simp [unsupportedShape] at h
  | interrupt => exact ⟨.interruptNotSupported, rfl⟩
  | sequential l r =>
      cases hl : causeMatch l with
      | error e => exact ⟨e, by simp [causeMatch, hl]⟩
      | ok v =>
          cases hr : causeMatch r with
          | error e => exact ⟨e, by simp [causeMatch, hl, hr]⟩
          | ok w => exact ⟨.sequentialNotSupported, by simp [causeMatch, hl, hr]⟩
  | parallel l r =>
      cases hl : causeMatch l with
      | error e => exact ⟨e, by simp [causeMatch, hl]⟩
      | ok v =>
          cases hr : causeMatch r with
          | error e => exact ⟨e, by simp [causeMatch, hl, hr]⟩
          | ok w => exact ⟨.parallelNotSupported, by simp [causeMatch, hl, hr]⟩

/-! ## Claim theorems -/

/-- C2: for every tuple, invoking the wrapped function with that tuple twice
in sequence executes the underlying computation exactly once, and the second
call's result equals the first's. -/
theorem memoization_two_sequential_calls [DecidableEq Args]
    (truthyA : A → Bool) (truthyE : E → Bool)
    (fns : Nat → Args → Ctx → Exit A E D) (fnId : Nat) (args : Args)
    (c1 c2 : Ctx) :
    (reactCacheCall truthyA truthyE fns fnId args c2
        (reactCacheCall truthyA truthyE fns fnId args c1 CacheState.empty).2).1
      = (reactCacheCall truthyA truthyE fns fnId args c1 CacheState.empty).1
    ∧ (reactCacheCall truthyA truthyE fns fnId args c2
        (reactCacheCall truthyA truthyE fns fnId args c1 CacheState.empty).2).2.execLog.length
      = 1 := by
  rw [first_call_state truthyA truthyE fns fnId args c1]
  rw [reactCacheCall_hit truthyA truthyE fns fnId args c2 _
    (runEffectFn (fns fnId) c1 args) (by simp [findSlot])]
  simp

/-- C3: for every tuple and every number of cooperatively interleaved
invocations with that tuple, exactly one underlying execution occurs and all
callers observe the same settled outcome (derived from the first caller's
context). -/
theorem concurrent_invocations_dedup [DecidableEq Args]
    (truthyA : A → Bool) (truthyE : E → Bool)
    (fns : Nat → Args → Ctx → Exit A E D) (fnId : Nat) (args : Args)
    (c0 : Ctx) (cs : List Ctx) :
    (runCalls truthyA truthyE fns
        ((fnId, args, c0) :: cs.map fun c => (fnId, args, c))
        CacheState.empty).1
      = List.replicate (cs.length + 1)
          (awaitSlot truthyA truthyE (runEffectFn (fns fnId) c0 args))
    ∧ (runCalls truthyA truthyE fns
        ((fnId, args, c0) :: cs.map fun c => (fnId, args, c))
        CacheState.empty).2.execLog
      = [(fnId, args, c0)] := by
  have hrest := runCalls_all_hit truthyA truthyE fns fnId args cs
    (⟨[((fnId, args), runEffectFn (fns fnId) c0 args)], [(fnId, args, c0)]⟩ :
      CacheState Args Ctx A E D)
    (runEffectFn (fns fnId) c0 args) (by simp [findSlot])
  simp only [runCalls, first_call_state truthyA truthyE fns fnId args c0, hrest]
  constructor
  · simp [List.replicate_succ, List.map_const]
  · trivial

/-- C4: for a fixed tuple, if a first call supplies environment `c1` and a
later call supplies a different environment `c2`, the settled result reflects
only `c1`: the environment is captured by the first execution and never
re-captured. -/
theorem environment_pinning [DecidableEq Args]
    (truthyA : A → Bool) (truthyE : E → Bool)
    (fns : Nat → Args → Ctx → Exit A E D) (fnId : Nat) (args : Args)
    (c1 c2 : Ctx) (_hne : c2 ≠ c1) :
    (reactCacheCall truthyA truthyE fns fnId args c2
        (reactCacheCall truthyA truthyE fns fnId args c1 CacheState.empty).2).1
      = awaitSlot truthyA truthyE (runEffectFn (fns fnId) c1 args)
    ∧ (reactCacheCall truthyA truthyE fns fnId args c2
        (reactCacheCall truthyA truthyE fns fnId args c1 CacheState.empty).2).2.execLog
      = [(fnId, args, c1)] := by
  rw [first_call_state truthyA truthyE fns fnId args c1]
  rw [reactCacheCall_hit truthyA truthyE fns fnId args c2 _
    (runEffectFn (fns fnId) c1 args) (by simp [findSlot])]
  exact ⟨rfl, rfl⟩

/-- Witness for C4 at concrete inputs: environments 1 then 2; the second
call's outcome is computed from environment 1 and no second execution is
logged. -/
theorem environment_pinning_witness :
    (reactCacheCall truthyNat truthyNat ctxFns 0 0 2
        (reactCacheCall truthyNat truthyNat ctxFns 0 0 1 CacheState.empty).2).1
      = awaitSlot truthyNat truthyNat (runEffectFn (ctxFns 0) 1 0)
    ∧ (reactCacheCall truthyNat truthyNat ctxFns 0 0 2
        (reactCacheCall truthyNat truthyNat ctxFns 0 0 1 CacheState.empty).2).2.execLog
      = [(0, 0, 1)] :=
  environment_pinning truthyNat truthyNat ctxFns 0 0 1 2 (by decide)

/-- C9: the memoization table is module-global and keyed by function identity
and tuple, so two wrapper functions produced by separate `reactCache` calls
on the same source function share slots: a call through the second wrapper
reuses the execution triggered through the first. -/
theorem separate_wrappers_share_slots [DecidableEq Args]
    (truthyA : A → Bool) (truthyE : E → Bool)
    (fns : Nat → Args → Ctx → Exit A E D) (fnId : Nat) (args : Args)
    (c1 c2 : Ctx) :
    (reactCache truthyA truthyE fns fnId args c2
        (reactCache truthyA truthyE fns fnId args c1 CacheState.empty).2).1
      = (reactCache truthyA truthyE fns fnId args c1 CacheState.empty).1
    ∧ (reactCache truthyA truthyE fns fnId args c2
        (reactCache truthyA truthyE fns fnId args c1 CacheState.empty).2).2.execLog
      = [(fnId, args, c1)] := by
  show (reactCacheCall truthyA truthyE fns fnId args c2
        (reactCacheCall truthyA truthyE fns fnId args c1 CacheState.empty).2).1
      = (reactCacheCall truthyA truthyE fns fnId args c1 CacheState.empty).1
    ∧ (reactCacheCall truthyA truthyE fns fnId args c2
        (reactCacheCall truthyA truthyE fns fnId args c1 CacheState.empty).2).2.execLog
      = [(fnId, args, c1)]
  rw [first_call_state truthyA truthyE fns fnId args c1]
  rw [reactCacheCall_hit truthyA truthyE fns fnId args c2 _
    (runEffectFn (fns fnId) c1 args) (by simp [findSlot])]
  exact ⟨rfl, rfl⟩

/-- C1: the underlying execution for the tuple settles as `Success(0)` (the
slot's stored result carries `success = some 0`), yet both the triggering
caller and a later caller with the same tuple observe `die(undefined)`, not
resolution with `0`: the `if (result.success)` truthiness test skips the
success branch for falsy values. -/
theorem falsy_success_observed_as_defect :
    runEffectFn (falsySuccessFns 0) 0 0 = Except.ok ⟨some 0, none, none⟩
    ∧ (reactCacheCall truthyNat truthyNat falsySuccessFns 0 0 0
        CacheState.empty).1
      = CallOutcome.die (Defect.value none)
    ∧ (reactCacheCall truthyNat truthyNat falsySuccessFns 0 0 0
        (reactCacheCall truthyNat truthyNat falsySuccessFns 0 0 0
          CacheState.empty).2).1
      = CallOutcome.die (Defect.value none) := by
  refine ⟨rfl, rfl, ?_⟩
  rw [first_call_state truthyNat truthyNat falsySuccessFns 0 0 0]
  rw [reactCacheCall_hit truthyNat truthyNat falsySuccessFns 0 0 0 _
    (runEffectFn (falsySuccessFns 0) 0 0) (by simp [findSlot])]
  rfl

/-- C5: the first execution for the tuple fails with the typed error `0` (the
slot's stored result carries `error = some 0`), yet both the triggering
caller and a later caller observe `die(undefined)` instead of the typed
failure: the `if (result.error)` truthiness test skips the failure branch for
falsy error values, and the error value itself is dropped. -/
theorem falsy_typed_error_observed_as_defect :
    runEffectFn (falsyFailFns 0) 0 0 = Except.ok ⟨none, some 0, none⟩
    ∧ (reactCacheCall truthyNat truthyNat falsyFailFns 0 0 0
        CacheState.empty).1
      = CallOutcome.die (Defect.value none)
    ∧ (reactCacheCall truthyNat truthyNat falsyFailFns 0 0 0
        (reactCacheCall truthyNat truthyNat falsyFailFns 0 0 0
          CacheState.empty).2).1
      = CallOutcome.die (Defect.value none) := by
  refine ⟨rfl, rfl, ?_⟩
  rw [first_call_state truthyNat truthyNat falsyFailFns 0 0 0]
  rw [reactCacheCall_hit truthyNat truthyNat falsyFailFns 0 0 0 _
    (runEffectFn (falsyFailFns 0) 0 0) (by simp [findSlot])]
  rfl

/-- C6: if the first execution for a tuple dies with a defect, then both the
triggering caller and every later caller with that tuple receive that defect
on the non-catchable `die` channel (never as a typed `fail`), and the
underlying computation runs exactly once. -/
theorem defect_propagation [DecidableEq Args]
    (truthyA : A → Bool) (truthyE : E → Bool)
    (fns : Nat → Args → Ctx → Exit A E D) (fnId : Nat) (args : Args)
    (c1 c2 : Ctx) (d : D)
    (h : fns fnId args c1 = Exit.failure (Cause.die d)) :
    (reactCacheCall truthyA truthyE fns fnId args c1 CacheState.empty).1
      = CallOutcome.die (Defect.value (some d))
    ∧ (reactCacheCall truthyA truthyE fns fnId args c2
        (reactCacheCall truthyA truthyE fns fnId args c1 CacheState.empty).2).1
      = CallOutcome.die (Defect.value (some d))
    ∧ (reactCacheCall truthyA truthyE fns fnId args c2
        (reactCacheCall truthyA truthyE fns fnId args c1 CacheState.empty).2).2.execLog.length
      = 1 := by
  have hrun : runEffectFn (fns fnId) c1 args =
      Except.ok ⟨none, none, some d⟩ := by
    simp [runEffectFn, h, causeMatch]
  rw [first_call_state truthyA truthyE fns fnId args c1]
  rw [reactCacheCall_hit truthyA truthyE fns fnId args c2 _
    (runEffectFn (fns fnId) c1 args) (by simp [findSlot])]
  rw [hrun]
  exact ⟨rfl, rfl, rfl⟩

/-- Witness for C6 at concrete inputs: a computation dying with defect `7`;
both callers observe `die(7)` and one execution is logged. -/
theorem defect_propagation_witness :
    (reactCacheCall truthyNat truthyNat dieFns 0 0 0 CacheState.empty).1
      = CallOutcome.die (Defect.value (some 7))
    ∧ (reactCacheCall truthyNat truthyNat dieFns 0 0 1
        (reactCacheCall truthyNat truthyNat dieFns 0 0 0 CacheState.empty).2).1
      = CallOutcome.die (Defect.value (some 7))
    ∧ (reactCacheCall truthyNat truthyNat dieFns 0 0 1
        (reactCacheCall truthyNat truthyNat dieFns 0 0 0 CacheState.empty).2).2.execLog.length
      = 1 :=
  defect_propagation truthyNat truthyNat dieFns 0 0 0 1 7 rfl

/-- C7: if the underlying execution settles with an interrupted or composite
(sequential/parallel) cause, classification throws: the caller's fiber dies
with the raised adapter error, and the slot holds the rejection — no settled
`PromiseResult` outcome is stored for the tuple. -/
theorem unsupported_cause_raises_and_stores_no_outcome [DecidableEq Args]
    (truthyA : A → Bool) (truthyE : E → Bool)
    (fns : Nat → Args → Ctx → Exit A E D) (fnId : Nat) (args : Args)
    (context : Ctx) (c : Cause E D)
    (hshape : unsupportedShape c = true)
    (h : fns fnId args context = Exit.failure c) :
    ∃ err : AdapterError,
      (reactCacheCall truthyA truthyE fns fnId args context
          CacheState.empty).1
        = CallOutcome.die (Defect.rejection err)
      ∧ findSlot (fnId, args)
          (reactCacheCall truthyA truthyE fns fnId args context
            CacheState.empty).2.slots
        = some (Except.error err)
      ∧ ∀ r : PromiseResult A E D,
          findSlot (fnId, args)
            (reactCacheCall truthyA truthyE fns fnId args context
              CacheState.empty).2.slots
          ≠ some (Except.ok r) := by
  obtain ⟨err, herr⟩ := causeMatch_unsupported c hshape
  have hrun : runEffectFn (fns fnId) context args = Except.error err := by
    simp [runEffectFn, h, herr]
  rw [first_call_state truthyA truthyE fns fnId args context]
  refine ⟨err, ?_, ?_, ?_⟩
  · simp [hrun, awaitSlot]
  · simp [hrun, findSlot]
  · intro r
    simp [hrun, findSlot]

/-- Witness for C7 at concrete inputs: an execution settling with the
interrupted cause; the caller dies with the raised adapter error and the slot
holds only the rejection. -/
theorem unsupported_cause_witness :
    ∃ err : AdapterError,
      (reactCacheCall truthyNat truthyNat interruptFns 0 0 0
          CacheState.empty).1
        = CallOutcome.die (Defect.rejection err)
      ∧ findSlot (0, 0)
          (reactCacheCall truthyNat truthyNat interruptFns 0 0 0
            CacheState.empty).2.slots
        = some (Except.error err)
      ∧ ∀ r : PromiseResult Nat Nat Nat,
          findSlot (0, 0)
            (reactCacheCall truthyNat truthyNat interruptFns 0 0 0
              CacheState.empty).2.slots
          ≠ some (Except.ok r) :=
  unsupported_cause_raises_and_stores_no_outcome truthyNat truthyNat
    interruptFns 0 0 0 Cause.interrupt rfl rfl

/-- C8: the `NoScope` conditional type resolves to the environment itself
exactly when `R` does not include the `Scope` capability, and resolves to the
two-string error tuple (a type distinct from every environment type, hence a
compile-time mismatch making the adapter statically unusable) exactly when
`R` includes `Scope`. -/
theorem noScope_type_level_guard (R : List Capability) :
    (NoScope R = EnvType.env R ↔ Capability.scope ∉ R)
    ∧ ((∃ m1 m2, NoScope R = EnvType.errTuple m1 m2) ↔ Capability.scope ∈ R)
    ∧ ∀ (S : List Capability) (m1 m2 : String),
        EnvType.errTuple m1 m2 ≠ EnvType.env S := by
  have hfilter : extractScope R = [] ↔ Capability.scope ∉ R := by
    constructor
    · intro hnil hin
      have hmem : Capability.scope ∈ extractScope R := by
        simp [extractScope, List.mem_filter, hin]
      rw [hnil] at hmem
      simp at hmem
    · intro hout
      refine List.eq_nil_iff_forall_not_mem.mpr fun x hx => ?_
      have := List.mem_filter.mp hx
      have hxs : x = Capability.scope := by simpa using this.2
      exact hout (hxs ▸ this.1)
  by_cases hs : Capability.scope ∈ R
  · have hne : ¬extractScope R = [] := fun hnil => (hfilter.mp hnil) hs
    refine ⟨?_, ?_, ?_⟩
    · simp [NoScope, hne, hs]
    · simp [NoScope, hne, hs]
    · intro S m1 m2 hcontra
      exact EnvType.noConfusion hcontra
  · have hnil : extractScope R = [] := hfilter.mpr hs
    refine ⟨?_, ?_, ?_⟩
    · simp [NoScope, hnil, hs]
    · simp [NoScope, hnil, hs]
    · intro S m1 m2 hcontra
      exact EnvType.noConfusion hcontra

/-- C10: a rejection of the slot promise (in particular the adapter's own
"not supported" errors thrown during cause classification) surfaces to every
caller as a defect on the `die` channel; the typed-failure channel arises
exactly from the explicit `fail` branch — a fulfilled result whose success
field is not truthy and whose error field holds a truthy error. -/
theorem rejection_dies_fail_only_from_error_branch
    (truthyA : A → Bool) (truthyE : E → Bool) :
    (∀ err : AdapterError,
      awaitSlot (A := A) (E := E) (D := D) truthyA truthyE (Except.error err)
        = CallOutcome.die (Defect.rejection err))
    ∧ ∀ (r : PromiseResult A E D) (e : E),
        awaitSlot truthyA truthyE (Except.ok r) = CallOutcome.fail e
          ↔ truthyOpt truthyA r.success = false ∧ r.error = some e
            ∧ truthyE e = true := by
  refine ⟨fun err => rfl, fun r e => ?_⟩
  obtain ⟨os, oe, od⟩ := r
  cases os with
  | none =>
      cases oe with
      | none => simp [awaitSlot, translateResult, translateNonSuccess, truthyOpt]
      | some e' =>
          by_cases he : truthyE e' = true
          · constructor
            · intro hfail
              simp [awaitSlot, translateResult, translateNonSuccess, he] at hfail
              subst hfail
              simp [truthyOpt, he]
            · rintro ⟨-, hsome, -⟩
              obtain rfl : e' = e := by simpa using hsome
              simp [awaitSlot, translateResult, translateNonSuccess, he]
          · constructor
            · intro hfail
              simp [awaitSlot, translateResult, translateNonSuccess, he] at hfail
            · rintro ⟨-, hsome, hte⟩
              obtain rfl : e' = e := by simpa using hsome
              exact absurd hte he
  | some a =>
      by_cases ha : truthyA a = true
      · constructor
        · intro hfail
          simp [awaitSlot, translateResult, ha] at hfail
        · rintro ⟨hto, -, -⟩
          simp [truthyOpt, ha] at hto
      · cases oe with
        | none =>
            simp [awaitSlot, translateResult, translateNonSuccess, ha, truthyOpt]
        | some e' =>
            by_cases he : truthyE e' = true
            · constructor
              · intro hfail
                simp [awaitSlot, translateResult, translateNonSuccess, ha, he] at hfail
                subst hfail
                simp [truthyOpt, ha, he]
              · rintro ⟨-, hsome, -⟩
                obtain rfl : e' = e := by simpa using hsome
                simp [awaitSlot, translateResult, translateNonSuccess, ha, he]
            · constructor
              · intro hfail
                simp [awaitSlot, translateResult, translateNonSuccess, ha, he] at hfail
              · rintro ⟨-, hsome, hte⟩
                obtain rfl : e' = e := by simpa using hsome
                exact absurd hte he

end ReactCache
